import Mathlib

/-!
Shallow embedding of MCEq/data.py.

This file embeds, over exact rationals, the parts of the module that the
verified properties refer to:

- `MCEqParticle` with `inverse_decay_length`, `inverse_interaction_length`,
  `calculate_mixing_energy`, `hadridx`, `residx`;
- `InteractionYields` with `_gen_mod_matrix`, `_set_mod_pprod`,
  `set_xf_band`, `get_y_matrix`;
- `DecayYields` with `get_d_matrix`, `is_daughter`;
- `HadAirCrossSections` with `get_cs`.

Numpy float arithmetic on the quantities used here (which are built from
table data and rational constants) is modelled by `FVal`: an exact rational
together with the two infinities and nan, with the numpy rules for division
by zero, for comparisons against nan, and for nan propagation in max/min.
Python dicts keyed by particle ids are modelled by association lists
accessed through key equality; python exceptions (KeyError, IndexError,
ZeroDivisionError handling, broadcast errors) are modelled by `Option`,
with `none` for an escaping exception.  In `_gen_mod_matrix` the statement
`self.xmat = self.no_interaction` makes both attributes reference the same
array, and the subsequent in-place column writes therefore mutate
`no_interaction` as well; the embedding reflects this by updating both
fields to the built matrix.
-/

namespace MCEqData

/-- Association-list model of a python dict lookup `d[key]` (by key equality);
`none` models a KeyError. -/
def alookup {κ α : Type} [DecidableEq κ] : List (κ × α) → κ → Option α
  | [], _ => none
  | (k, v) :: t, q => if q = k then some v else alookup t q

/-- Association-list model of a python dict update `d[key] = value`. -/
def aset {κ α : Type} [DecidableEq κ] : List (κ × α) → κ → α → List (κ × α)
  | [], q, v => [(q, v)]
  | (k, w) :: t, q, v => if k = q then (k, v) :: t else (k, w) :: aset t q v

/-- Map with the element index, starting from a given index. -/
def mapIdxFrom {α β : Type} (f : ℕ → α → β) : ℕ → List α → List β
  | _, [] => []
  | i, a :: t => f i a :: mapIdxFrom f (i + 1) t

/-- Index of the first element satisfying `pp`, as in `np.where(...)[0][0]`;
`none` models the IndexError raised on an empty index array. -/
def firstIdx {α : Type} (pp : α → Bool) : List α → Option ℕ
  | [] => none
  | a :: t => if pp a then some 0 else (firstIdx pp t).map (· + 1)

/-- A numpy floating value: an exact rational, an infinity, or nan. -/
inductive FVal : Type where
  | nan : FVal
  | ninf : FVal
  | fin : ℚ → FVal
  | inf : FVal
deriving DecidableEq

/-- Strict `<` on numpy values: any comparison against nan is false. -/
def FVal.blt : FVal → FVal → Bool
  | .nan, _ => false
  | _, .nan => false
  | .ninf, .ninf => false
  | .ninf, _ => true
  | _, .ninf => false
  | .fin a, .fin b => decide (a < b)
  | .fin _, .inf => true
  | .inf, _ => false

/-- The elementwise test `x > 0.` on a numpy value. -/
def FVal.gt0 (v : FVal) : Bool := FVal.blt (.fin 0) v

/-- Reciprocal `1 / x` with the numpy rules `1/0 = inf` and `1/inf = 0`. -/
def FVal.recip : FVal → FVal
  | .nan => .nan
  | .inf => .fin 0
  | .ninf => .fin 0
  | .fin q => if q = 0 then .inf else .fin q⁻¹

/-- Multiplication by a finite scalar, `x * c`, with the numpy rules
`inf * 0 = nan` and sign-aware `inf * c`. -/
def FVal.scale (c : ℚ) : FVal → FVal
  | .nan => .nan
  | .fin q => .fin (q * c)
  | .inf => if 0 < c then .inf else if c < 0 then .ninf else .nan
  | .ninf => if 0 < c then .ninf else if c < 0 then .inf else .nan

/-- Division `a / b` with the numpy rules for zero and infinite denominators
(`q/0 = ±inf` for `q ≠ 0`, `0/0 = nan`, `q/inf = 0`, `inf/inf = nan`). -/
def FVal.div : FVal → FVal → FVal
  | .nan, _ => .nan
  | _, .nan => .nan
  | .fin a, .fin b =>
      if b = 0 then (if 0 < a then .inf else if a < 0 then .ninf else .nan)
      else .fin (a / b)
  | .fin _, .inf => .fin 0
  | .fin _, .ninf => .fin 0
  | .inf, .fin b => if b < 0 then .ninf else .inf
  | .ninf, .fin b => if b < 0 then .inf else .ninf
  | .inf, .inf => .nan
  | .inf, .ninf => .nan
  | .ninf, .inf => .nan
  | .ninf, .ninf => .nan

/-- Binary max as used by `np.max`: nan propagates. -/
def FVal.max2 (a b : FVal) : FVal :=
  if a = .nan ∨ b = .nan then .nan else if a.blt b then b else a

/-- Binary min as used by `np.min`: nan propagates. -/
def FVal.min2 (a b : FVal) : FVal :=
  if a = .nan ∨ b = .nan then .nan else if b.blt a then b else a

/-- `np.max` over a vector; `none` models the ValueError on an empty array. -/
def npMax : List FVal → Option FVal
  | [] => none
  | a :: t => some (t.foldl FVal.max2 a)

/-- `np.min` over a vector; `none` models the ValueError on an empty array. -/
def npMin : List FVal → Option FVal
  | [] => none
  | a :: t => some (t.foldl FVal.min2 a)

/-- Elementwise division of two equal-length vectors; `none` models the
broadcast error numpy raises on a length mismatch. -/
def vdiv (a b : List FVal) : Option (List FVal) :=
  if a.length = b.length then some (List.zipWith FVal.div a b) else none

/-- The entries of `mceq_config` consulted by the embedded code. -/
structure Config : Type where
  hybrid_crossover : ℚ
  exclude_from_mixing : List ℕ
  A_target : ℚ
  use_isospin_sym : Bool
  disable_charm_pprod : Bool
  disable_leading_mesons : Bool
deriving DecidableEq

/-- The proton mass constant `1.672621 * 1e-24` (grams) of the source. -/
def m_proton : ℚ := 1672621 / 10 ^ 30

/-- The scalar division `r / E` for one grid entry, with the numpy rule for a
zero denominator. -/
def scalarDivE (r e : ℚ) : FVal :=
  if e = 0 then (if 0 < r then .inf else if r < 0 then .ninf else .nan)
  else .fin (r / e)

/-- The mutable per-species state of `MCEqParticle` used by the embedded
methods.  `mass` and `ctau` are the values of `pythia_db.mass(pdgid)` and
`pythia_db.ctau(pdgid)`; `ctau = 0` is the case in which the source raises
(and catches) a ZeroDivisionError.  `csv` is the value returned by
`self.cs.get_cs(pdgid)`: a scalar, a vector over the energy grid, or `none`
for an escaping lookup error. -/
structure MCEqParticle : Type where
  pdgid : Int
  mass : ℚ
  ctau : ℚ
  csv : Option (ℚ ⊕ List ℚ)
  d : ℕ
  mix_idx : ℕ
  E_mix : ℚ
  is_mixed : Bool
  is_resonance : Bool
deriving DecidableEq

/-- `MCEqParticle.hadridx`: index range where the particle behaves as a
hadron. -/
def MCEqParticle.hadridx (p : MCEqParticle) : ℕ × ℕ := (p.mix_idx, p.d)

/-- `MCEqParticle.residx`: index range where the particle behaves as a
resonance. -/
def MCEqParticle.residx (p : MCEqParticle) : ℕ × ℕ := (0, p.mix_idx)

/-- `MCEqParticle.inverse_decay_length`: `mass / ctau / E` elementwise, with
entries below `mix_idx` zeroed when `cut` is set; on a ZeroDivisionError
(`ctau = 0`) the method returns `np.ones(d) * np.inf`. -/
def MCEqParticle.inverse_decay_length (p : MCEqParticle) (E : List ℚ)
    (cut : Bool) : List FVal :=
  if p.ctau = 0 then List.replicate p.d FVal.inf
  else
    mapIdxFrom
      (fun i e =>
        if cut && decide (i < p.mix_idx) then FVal.fin 0
        else scalarDivE (p.mass / p.ctau) e) 0 E

/-- `MCEqParticle.inverse_interaction_length`:
`np.ones(d) * cs.get_cs(pdgid) / m_target`.  A scalar cross-section
broadcasts over the grid; a vector must broadcast against `np.ones(d)`
(length `d` or length 1), otherwise numpy raises. -/
def MCEqParticle.inverse_interaction_length (cfg : Config) (p : MCEqParticle) :
    Option (List ℚ) :=
  let m_target := cfg.A_target * m_proton
  match p.csv with
  | none => none
  | some (Sum.inl s) => some (List.replicate p.d (s / m_target))
  | some (Sum.inr v) =>
      if v.length = p.d then some (v.map (· / m_target))
      else if v.length = 1 then some (List.replicate p.d (v.headD 0 / m_target))
      else none

/-- `MCEqParticle.calculate_mixing_energy`, translated branch by branch from
the source; `none` models an escaping exception (lookup error inside
`get_cs`, broadcast error, empty-array ValueError, or the IndexError of
`np.where(...)[0][0]` on an empty index). -/
def MCEqParticle.calculate_mixing_energy (cfg : Config) (p : MCEqParticle)
    (e_grid : List ℚ) (no_mix : Bool) (max_density : ℚ) :
    Option MCEqParticle :=
  if p.pdgid.natAbs = 2212 ∨ p.pdgid.natAbs = 2112 then
    some { p with mix_idx := 0, is_mixed := false }
  else
    (p.inverse_interaction_length cfg).bind fun inv_intlen =>
    let inv_declen := p.inverse_decay_length e_grid true
    if inv_declen.any FVal.gt0 = false ∨
        inv_intlen.any (fun q => decide (0 < q)) = false ∨
        p.pdgid.natAbs ∈ cfg.exclude_from_mixing then
      some { p with mix_idx := 0, is_mixed := false, is_resonance := false }
    else
      let lint := inv_intlen.map fun q => FVal.recip (.fin q)
      let d_tilde := (p.inverse_decay_length e_grid true).map FVal.recip
      let ldec := d_tilde.map (FVal.scale max_density)
      (vdiv ldec lint).bind fun threshold =>
      (npMax threshold).bind fun mx =>
      (npMin threshold).bind fun mn =>
      if mx.blt (.fin cfg.hybrid_crossover) = true then
        (e_grid.get? (p.d - 1)).bind fun em =>
          some { p with mix_idx := p.d - 1, E_mix := em, is_mixed := false,
                        is_resonance := true }
      else if (FVal.fin cfg.hybrid_crossover).blt mn = true ∨ no_mix = true then
        some { p with mix_idx := 0, is_mixed := false, is_resonance := false }
      else
        (firstIdx (fun t => (FVal.fin cfg.hybrid_crossover).blt t)
            threshold).bind fun k =>
        (e_grid.get? k).bind fun em =>
          some { p with mix_idx := k, E_mix := em, is_mixed := true,
                        is_resonance := false }

/-- A dense matrix over the energy grid. -/
abbrev Mat : Type := List (List ℚ)

/-- The shape of a caller-supplied modification function
`x_func(xmat, e_grid, *args)`. -/
abbrev XFunc : Type := Mat → List ℚ → List ℚ → Mat

/-- One entry of the `mod_pprod` dict:
`(x_func.__name__, args, cached matrix)`. -/
abbrev ModVal : Type := String × List ℚ × Mat

/-- The state of `InteractionYields` touched by the embedded methods. -/
structure InteractionYields : Type where
  e_grid : List ℚ
  dim : ℕ
  band : Option (Int × Int)
  mod_pprod : List ((Int × Int) × ModVal)
  xmat : Option Mat
  no_interaction : Mat
  yields : List ((Int × Int) × Mat)
  projectiles : List Int
deriving DecidableEq

/-- The x-matrix built inside `_gen_mod_matrix`: column `j`, rows `0..j`,
holds `e_grid[0..j] / e_grid[j]`; entries below the diagonal keep the
content of the buffer the loop writes into. -/
def buildXmat (base : Mat) (e_grid : List ℚ) (dim : ℕ) : Mat :=
  (List.range dim).map fun i => (List.range dim).map fun j =>
    if i ≤ j then e_grid.getD i 0 / e_grid.getD j 0
    else (base.getD i []).getD j 0

/-- `modmat[np.tril_indices(dim, -1)] = 0.`: zero the strictly
lower-triangular entries. -/
def trilZero (m : Mat) : Mat :=
  mapIdxFrom (fun i row => mapIdxFrom (fun j x => if j < i then 0 else x) 0 row)
    0 m

/-- `InteractionYields._gen_mod_matrix`.  If `xmat` is not yet built, the
source executes `self.xmat = self.no_interaction` followed by in-place
column writes, so both attributes end up referencing the built matrix. -/
def InteractionYields._gen_mod_matrix (s : InteractionYields) (f : XFunc)
    (args : List ℚ) : Mat × InteractionYields :=
  let s' :=
    match s.xmat with
    | some _ => s
    | none =>
        let built := buildXmat s.no_interaction s.e_grid s.dim
        { s with xmat := some built, no_interaction := built }
  (trilZero (f (s'.xmat.getD []) s'.e_grid args), s')

/-- The elementwise average loop `arg[i] = 0.5 * (arg[i] + other[i])` over
`range(len(args))`; `none` models the IndexError raised when the other
argument tuple is shorter. -/
def avgArgs (args other : List ℚ) : Option (List ℚ) :=
  if args.length ≤ other.length then
    some (List.zipWith (fun x y => (x + y) / 2) args other)
  else none

/-- The dict membership and `[:2]` comparison guarding `_set_mod_pprod`:
true when an entry for the key already exists with identical
`(function name, args)`. -/
def modMatches (store : List ((Int × Int) × ModVal)) (k : Int × Int)
    (fname : String) (args : List ℚ) : Bool :=
  match alookup store k with
  | some (n, a, _) => decide (n = fname ∧ a = args)
  | none => false

/-- The six unflavored targets `{p,n} × {221, 223, 333}` of the source. -/
def isoKeysPion : List (Int × Int) :=
  [(2212, 221), (2212, 223), (2212, 333), (2112, 221), (2112, 223),
   (2112, 333)]

/-- The four neutral-kaon targets `{p,n} × {310, 130}` of the source. -/
def isoKeysKaon : List (Int × Int) :=
  [(2212, 310), (2212, 130), (2112, 310), (2112, 130)]

/-- The isospin-propagation tail of `_set_mod_pprod`, executed after the
entry for `(prim, sec)` has been stored as `(fname, args, kmat)`. -/
def InteractionYields.applyIsospin (cfg : Config) (s2 : InteractionYields)
    (prim sec : Int) (f : XFunc) (args : List ℚ) (kmat : Mat) :
    Option InteractionYields :=
  if cfg.use_isospin_sym && decide (prim = 2212) then
    if sec.natAbs = 211 then
      let s3 := { s2 with
        mod_pprod := aset s2.mod_pprod (2112, -sec) ("isospin", args, kmat) }
      if 221 ∈ s3.projectiles ∨ 223 ∈ s3.projectiles ∨ 333 ∈ s3.projectiles then
        (match alookup s3.mod_pprod (2212, -sec) with
          | some (_, oargs, _) => avgArgs args oargs
          | none => some args).bind fun unflv_arg =>
        let w := s3._gen_mod_matrix f unflv_arg
        some { w.2 with
          mod_pprod := isoKeysPion.foldl
            (fun st t => aset st t ("isospin", unflv_arg, w.1)) w.2.mod_pprod }
      else some s3
    else if sec.natAbs = 321 then
      let s3 := { s2 with
        mod_pprod := aset s2.mod_pprod (2112, sec) ("isospin", args, kmat) }
      (match alookup s3.mod_pprod (2212, -sec) with
        | some (_, oargs, _) => avgArgs args oargs
        | none => some args).bind fun k0arg =>
      let w := s3._gen_mod_matrix f k0arg
      some { w.2 with
        mod_pprod := isoKeysKaon.foldl
          (fun st t => aset st t ("isospin", k0arg, w.1)) w.2.mod_pprod }
    else if sec.natAbs = 2212 then
      (alookup s2.mod_pprod (prim, sec)).bind fun e =>
        some { s2 with
          mod_pprod := aset s2.mod_pprod (2112, 2112) ("isospin", args, e.2.2) }
    else some s2
  else some s2

/-- `InteractionYields._set_mod_pprod`: no-op returning `False` when an entry
with identical `(function name, args)` exists; otherwise store the new
matrix, run the isospin propagation, and return `True`. -/
def InteractionYields._set_mod_pprod (cfg : Config) (s : InteractionYields)
    (prim sec : Int) (fname : String) (f : XFunc) (args : List ℚ) :
    Option (Bool × InteractionYields) :=
  if modMatches s.mod_pprod (prim, sec) fname args then some (false, s)
  else
    let w := s._gen_mod_matrix f args
    let s2 := { w.2 with
      mod_pprod := aset w.2.mod_pprod (prim, sec) (fname, args, w.1) }
    (s2.applyIsospin cfg prim sec f args w.1).map fun s3 => (true, s3)

/-- `InteractionYields.set_xf_band`: store the band for valid indices, reset
it to `None` otherwise. -/
def InteractionYields.set_xf_band (s : InteractionYields)
    (xl_low_idx xl_up_idx : Int) : InteractionYields :=
  if 0 ≤ xl_low_idx ∧ 0 < xl_up_idx then
    { s with band := some (xl_low_idx, xl_up_idx) }
  else { s with band := none }

/-- The charmed-hadron id test of `get_y_matrix`:
`400 < |id| < 500` or `4000 < |id| < 5000`. -/
def charmHadron (p : Int) : Bool :=
  decide ((400 < p.natAbs ∧ p.natAbs < 500) ∨
          (4000 < p.natAbs ∧ p.natAbs < 5000))

/-- `np.sum(m[:, 20:50])`: the near-diagonal window sum of the leading
particle veto (`ie = 50`, columns `ie-30 .. ie-1`). -/
def sumWindow (m : Mat) : ℚ :=
  (m.map fun row => ((row.drop 20).take 30).sum).sum

/-- Elementwise product `m *= k` of two matrices of equal shape. -/
def elemMul (a b : Mat) : Mat :=
  List.zipWith (fun r1 r2 => List.zipWith (· * ·) r1 r2) a b

/-- The xf-band masking of `get_y_matrix`:
`m[np.tril_indices(dim, dim - hi - 1)] = 0` and
`m[np.triu_indices(dim, dim - lo)] = 0` on a copy. -/
def bandMask (dim : ℕ) (lo hi : Int) (m : Mat) : Mat :=
  mapIdxFrom
    (fun i row =>
      mapIdxFrom
        (fun j x =>
          if (j : Int) - (i : Int) ≤ (dim : Int) - hi - 1 ∨
             (dim : Int) - lo ≤ (j : Int) - (i : Int) then 0 else x) 0 row)
    0 m

/-- `InteractionYields.get_y_matrix`: the charm veto short-circuit, the raw
dict lookup (a missing pair raises, modelled by `none`), the leading
particle veto, the modification scaling and the band masking, in source
order.  Scaling and masking act on copies; the stored matrices are never
written. -/
def InteractionYields.get_y_matrix (cfg : Config) (s : InteractionYields)
    (projectile daughter : Int) : Option Mat :=
  if cfg.disable_charm_pprod && charmHadron projectile then
    some s.no_interaction
  else
    (alookup s.yields (projectile, daughter)).bind fun m0 =>
    let m1 :=
      if cfg.disable_leading_mesons && decide (daughter.natAbs < 2000) then
        match alookup s.yields (projectile, -daughter) with
        | some manti =>
            if 0 < sumWindow m0 - sumWindow manti then manti else m0
        | none => m0
      else m0
    let m2 :=
      match alookup s.mod_pprod (projectile, daughter) with
      | some e => elemMul m1 e.2.2
      | none => m1
    match s.band with
    | none => some m2
    | some (lo, hi) => some (bandMask s.dim lo hi m2)

/-- The state of `DecayYields` touched by the embedded methods. -/
structure DecayYields : Type where
  decay_dict : List ((Int × Int) × Mat)
  daughter_dict : List (Int × List Int)
deriving DecidableEq

/-- `DecayYields.is_daughter`. -/
def DecayYields.is_daughter (s : DecayYields) (mother daughter : Int) : Bool :=
  match alookup s.daughter_dict mother with
  | none => false
  | some l => decide (daughter ∈ l)

/-- `DecayYields.get_d_matrix`: a raw dict lookup (the debug print on a
non-daughter does not change control flow); a missing pair raises, modelled
by `none`. -/
def DecayYields.get_d_matrix (s : DecayYields) (mother daughter : Int) :
    Option Mat :=
  alookup s.decay_dict (mother, daughter)

/-- `DecayYields.daughters`: empty list when the mother is stable or
unknown. -/
def DecayYields.daughters (s : DecayYields) (mother : Int) : List Int :=
  (alookup s.daughter_dict mother).getD []

/-- The cross-section table state of `HadAirCrossSections` for the active
model: projectile id to cross-section vector, in mbarn. -/
structure HadAirCrossSections : Type where
  cs : List (Int × List ℚ)
deriving DecidableEq

/-- The unit constant `GeVfm = 0.19732696312541853`. -/
def GeVfm : ℚ := 19732696312541853 / 10 ^ 17

/-- The unit constant `GeVcm = GeVfm * 1e-13`. -/
def GeVcm : ℚ := GeVfm * (1 / 10 ^ 13)

/-- The unit constant `GeV2mbarn = 10 * GeVfm ** 2`. -/
def GeV2mbarn : ℚ := 10 * GeVfm ^ 2

/-- The unit conversion `mbarn2cm2 = GeVcm ** 2 / GeV2mbarn`. -/
def mbarn2cm2 : ℚ := GeVcm ^ 2 / GeV2mbarn

/-- The result of `get_cs`: a vector over the grid, or the bare scalar `0.`
returned for leptons. -/
inductive CSRes : Type where
  | scalar : ℚ → CSRes
  | vec : List ℚ → CSRes
deriving DecidableEq

/-- `HadAirCrossSections.get_cs`, translated branch by branch: the first test
uses `abs(projectile)` for membership but the signed id for the lookup;
the fallback chain follows; leptons get the bare scalar `0.`.  A failing
dict lookup is `none`. -/
def HadAirCrossSections.get_cs (h : HadAirCrossSections) (projectile : Int)
    (mbarn : Bool) : Option CSRes :=
  let scale : ℚ := if mbarn then 1 else mbarn2cm2
  let scaled : List ℚ → CSRes := fun v => CSRes.vec (v.map fun x => scale * x)
  if (alookup h.cs (projectile.natAbs : Int)).isSome then
    (alookup h.cs projectile).map scaled
  else if projectile.natAbs = 411 ∨ projectile.natAbs = 421 ∨
      projectile.natAbs = 431 ∨ projectile.natAbs = 15 then
    (alookup h.cs 321).map scaled
  else if projectile.natAbs = 4332 ∨ projectile.natAbs = 4232 ∨
      projectile.natAbs = 4132 then
    (alookup h.cs 2212).map scaled
  else if projectile.natAbs = 22 then
    (alookup h.cs 211).map scaled
  else if 2000 < projectile.natAbs ∧ projectile.natAbs < 5000 then
    (alookup h.cs 2212).map scaled
  else if (10 < projectile.natAbs ∧ projectile.natAbs < 17) ∨
      (7000 < projectile.natAbs ∧ projectile.natAbs < 7500) then
    some (CSRes.scalar 0)
  else
    (alookup h.cs 211).map scaled

/-! Concrete fixtures used by the closed theorems and witnesses.  The
`A_target` of the fixture config is chosen so that
`m_target = A_target * 1.672621e-24 = 1`, keeping the grids readable. -/

/-- Fixture config: crossover 1/2, nothing excluded, all flags off. -/
def cfgFix : Config :=
  { hybrid_crossover := 1 / 2, exclude_from_mixing := [],
    A_target := 10 ^ 30 / 1672621, use_isospin_sym := false,
    disable_charm_pprod := false, disable_leading_mesons := false }

/-- Fixture config with isospin symmetry enabled. -/
def cfgIsoFix : Config := { cfgFix with use_isospin_sym := true }

/-- Fixture config with charm production disabled. -/
def cfgBugFix : Config := { cfgFix with disable_charm_pprod := true }

/-- Fixture config with crossover 1/4, for the mixed-classification run. -/
def cfgMixFix : Config := { cfgFix with hybrid_crossover := 1 / 4 }

/-- A pion-like species whose `ctau` lookup raises (zero lifetime data). -/
def pStable : MCEqParticle :=
  { pdgid := 211, mass := 1, ctau := 0, csv := some (Sum.inr [1, 1]), d := 2,
    mix_idx := 0, E_mix := 0, is_mixed := false, is_resonance := false }

/-- The state `pStable` reaches after `calculate_mixing_energy`. -/
def pStableOut : MCEqParticle :=
  { pStable with mix_idx := 1, E_mix := 10, is_mixed := false,
                 is_resonance := true }

/-- A kaon-like species engineered so that `threshold` crosses the crossover
1/4 exactly at grid index 1 of the grid `[1, 10, 100]`. -/
def pMix : MCEqParticle :=
  { pdgid := 321, mass := 1, ctau := 1, csv := some (Sum.inl 1), d := 3,
    mix_idx := 0, E_mix := 0, is_mixed := false, is_resonance := false }

/-- The state `pMix` reaches after `calculate_mixing_energy`. -/
def pMixOut : MCEqParticle :=
  { pMix with mix_idx := 1, E_mix := 10, is_mixed := true,
              is_resonance := false }

/-- A concrete modification function for the fixtures. -/
def fconst : XFunc := fun _ _ _ => [[1, 1], [1, 1]]

/-- A fresh two-bin `InteractionYields` state with no yields stored. -/
def sIY0 : InteractionYields :=
  { e_grid := [1, 10], dim := 2, band := none, mod_pprod := [], xmat := none,
    no_interaction := [[0, 0], [0, 0]], yields := [], projectiles := [] }

/-- The x-matrix built from the grid `[1, 10]`. -/
def xmatFix : Mat := [[1, 1 / 10], [0, 1]]

/-- `trilZero` of the output of `fconst`. -/
def kmatFix : Mat := [[1, 1], [0, 1]]

/-- The state `sIY0` reaches after `_set_mod_pprod 2212 211` with isospin
propagation enabled. -/
def sIsoOut : InteractionYields :=
  { sIY0 with
    mod_pprod := [((2212, 211), ("f", [], kmatFix)),
                  ((2112, -211), ("isospin", [], kmatFix))],
    xmat := some xmatFix, no_interaction := xmatFix }

/-- The state `sIY0` reaches after `_set_mod_pprod 2212 211` with isospin
disabled: note that `no_interaction` is no longer the zero matrix. -/
def sBugOut : InteractionYields :=
  { sIY0 with
    mod_pprod := [((2212, 211), ("f", [], kmatFix))],
    xmat := some xmatFix, no_interaction := xmatFix }

/-- A one-bin state holding a single yield matrix for `(2212, 211)`. -/
def sC5 : InteractionYields :=
  { e_grid := [1], dim := 1, band := none, mod_pprod := [], xmat := none,
    no_interaction := [[0]], yields := [((2212, 211), [[5]])],
    projectiles := [] }

/-- An empty decay store. -/
def sDYempty : DecayYields := { decay_dict := [], daughter_dict := [] }

/-- A cross-section table holding kaon and pion entries only. -/
def hcsKaon : HadAirCrossSections := { cs := [(321, [7]), (211, [3])] }

/-- A cross-section table holding a pion entry only. -/
def hcsPion : HadAirCrossSections := { cs := [(211, [3])] }

/-! Helper lemmas about the dict model. -/

theorem alookup_aset_self {κ α : Type} [DecidableEq κ] (l : List (κ × α))
    (q : κ) (v : α) : alookup (aset l q v) q = some v := by
  induction l with
  | nil => simp [aset, alookup]
  | cons kv t ih =>
    obtain ⟨k, w⟩ := kv
    by_cases h : k = q
    · subst h; simp [aset, alookup]
    · simp only [aset, if_neg h, alookup]
      rw [if_neg (fun h2 => h h2.symm)]
      exact ih

theorem alookup_aset_ne {κ α : Type} [DecidableEq κ] (l : List (κ × α))
    (q q' : κ) (v : α) (h : q' ≠ q) :
    alookup (aset l q v) q' = alookup l q' := by
  induction l with
  | nil => simp [aset, alookup, h]
  | cons kv t ih =>
    obtain ⟨k, w⟩ := kv
    by_cases hk : k = q
    · subst hk
      simp [aset, alookup, h]
    · simp only [aset, if_neg hk, alookup]
      by_cases hq : q' = k
      · rw [if_pos hq, if_pos hq]
      · rw [if_neg hq, if_neg hq]
        exact ih

theorem alookup_foldl_aset_ne {α : Type} (keys : List (Int × Int)) (v : α)
    (l : List ((Int × Int) × α)) (q : Int × Int) (h : q ∉ keys) :
    alookup (keys.foldl (fun st t => aset st t v) l) q = alookup l q := by
  induction keys generalizing l with
  | nil => rfl
  | cons k t ih =>
    simp only [List.mem_cons, not_or] at h
    simp only [List.foldl_cons]
    rw [ih _ h.2]
    exact alookup_aset_ne l k q v h.1

theorem gen_mod_matrix_mod_pprod (s : InteractionYields) (f : XFunc)
    (args : List ℚ) : (s._gen_mod_matrix f args).2.mod_pprod = s.mod_pprod := by
  cases h : s.xmat <;> simp [InteractionYields._gen_mod_matrix, h]

/-! Claims about the cross-section table. -/

/-- C10: when `abs(projectile)` is a key of the active table but the signed
id is not, `get_cs` raises a KeyError (modelled by `none`) instead of
falling back to the antiparticle entry: the membership test uses the
absolute value while the lookup uses the signed id. -/
theorem claim_C10 (h : HadAirCrossSections) (p : Int) (mbarn : Bool)
    (habs : (alookup h.cs (p.natAbs : Int)).isSome = true)
    (hsig : alookup h.cs p = none) :
    h.get_cs p mbarn = none := by
  unfold HadAirCrossSections.get_cs
  rw [if_pos habs, hsig]
  rfl

/-- C10 witness: with only `211` stored, `get_cs (-211)` raises. -/
theorem claim_C10_witness : hcsPion.get_cs (-211) false = none :=
  claim_C10 hcsPion (-211) false (by decide) (by decide)

/-- C8 counterexample: the tau lepton id 15 lies inside the lepton range
`10 < abs(id) < 17`, yet `get_cs` returns the kaon cross-section for it
(the charm/tau fallback precedes the lepton branch), not an all-zero
vector. -/
theorem claim_C8_counterexample :
    hcsKaon.get_cs 15 true = some (CSRes.vec [7]) ∧
    ¬ ∃ v, hcsKaon.get_cs 15 true = some (CSRes.vec v) ∧ ∀ x ∈ v, x = 0 := by
  refine ⟨by with_unfolding_all rfl, ?_⟩
  rintro ⟨v, hv, hz⟩
  rw [show hcsKaon.get_cs 15 true = some (CSRes.vec [7]) from
    by with_unfolding_all rfl] at hv
  have hv2 := Option.some.inj hv
  injection hv2 with hv3
  subst hv3
  have h7 := hz 7 (by simp)
  norm_num at h7

/-- C8 (amended): for every projectile id in the lepton ranges except tau
(`abs(id) = 15`, which is caught by the kaon fallback first) with no
direct table entry, `get_cs` returns the bare scalar `0.` (zero in either
unit), which broadcasts to an all-zero vector over the grid. -/
theorem claim_C8_amended (h : HadAirCrossSections) (p : Int) (mbarn : Bool)
    (hp : (10 < p.natAbs ∧ p.natAbs < 17 ∧ p.natAbs ≠ 15) ∨
          (7000 < p.natAbs ∧ p.natAbs < 7500))
    (habs : alookup h.cs (p.natAbs : Int) = none) :
    h.get_cs p mbarn = some (CSRes.scalar 0) := by
  unfold HadAirCrossSections.get_cs
  rw [habs]
  rw [if_neg (by simp)]
  rw [if_neg (by omega), if_neg (by omega), if_neg (by omega),
      if_neg (by omega), if_pos (by omega)]

/-- C8 witness: the muon id 13 with no table entry gets the scalar zero. -/
theorem claim_C8_witness : hcsPion.get_cs 13 false = some (CSRes.scalar 0) :=
  claim_C8_amended hcsPion 13 false (by decide) (by decide)

/-! Claims about missing-pair queries. -/

/-- C7 counterexample: a `get_y_matrix` query for a pair absent from the
registry raises a KeyError (modelled by `none`); it is not surfaced as an
empty/zero matrix. -/
theorem claim_C7_counterexample :
    sIY0.get_y_matrix cfgFix 2212 211 = none ∧
    sDYempty.get_d_matrix 13 11 = none ∧
    ¬ ∃ m, sIY0.get_y_matrix cfgFix 2212 211 = some m := by
  refine ⟨by decide, rfl, ?_⟩
  rintro ⟨m, hm⟩
  rw [show sIY0.get_y_matrix cfgFix 2212 211 = none from by decide] at hm
  cases hm

/-- C7 (amended): a yield query for a `(projectile, daughter)` or
`(mother, daughter)` pair absent from the sparse registry raises a
KeyError from the raw dict access (modelled by `none`) in both
`get_y_matrix` (whenever the charm-disabled short-circuit does not apply)
and `get_d_matrix`; it is not converted to an empty/zero result. -/
theorem claim_C7_amended (cfg : Config) (s : InteractionYields)
    (ds : DecayYields) (p dau mo dd : Int)
    (h1 : alookup s.yields (p, dau) = none)
    (h2 : (cfg.disable_charm_pprod && charmHadron p) = false)
    (h3 : alookup ds.decay_dict (mo, dd) = none) :
    s.get_y_matrix cfg p dau = none ∧ ds.get_d_matrix mo dd = none := by
  refine ⟨?_, h3⟩
  unfold InteractionYields.get_y_matrix
  rw [if_neg (by simp [h2]), h1]
  rfl

/-- C7 witness: concrete missing pairs in both stores. -/
theorem claim_C7_witness :
    sIY0.get_y_matrix cfgFix 321 211 = none ∧
    sDYempty.get_d_matrix 321 211 = none :=
  claim_C7_amended cfgFix sIY0 sDYempty 321 211 321 211 (by decide) (by decide)
    (by decide)

/-! Claim C5: band round trip. -/

/-- C5: setting an xf band and then clearing it (invalid indices reset the
band to `None`) leaves `get_y_matrix` returning exactly the stored
canonical matrix of the pair (with charm veto inapplicable, leading-meson
veto off and no modification entry), and the stored yields are untouched:
masking and scaling act on copies only. -/
theorem claim_C5 (cfg : Config) (s : InteractionYields) (lo hi p dau : Int)
    (m : Mat)
    (hy : alookup s.yields (p, dau) = some m)
    (hc : (cfg.disable_charm_pprod && charmHadron p) = false)
    (hl : cfg.disable_leading_mesons = false)
    (hmod : alookup s.mod_pprod (p, dau) = none) :
    ((s.set_xf_band lo hi).set_xf_band (-1) 0).get_y_matrix cfg p dau = some m ∧
    ((s.set_xf_band lo hi).set_xf_band (-1) 0).yields = s.yields ∧
    ((s.set_xf_band lo hi).set_xf_band (-1) 0).band = none := by
  have hs : (s.set_xf_band lo hi).set_xf_band (-1) 0 = { s with band := none } := by
    unfold InteractionYields.set_xf_band
    rw [if_neg (by omega)]
    split <;> rfl
  rw [hs]
  refine ⟨?_, rfl, rfl⟩
  unfold InteractionYields.get_y_matrix
  rw [if_neg (by simp [hc])]
  show (alookup s.yields (p, dau)).bind _ = some m
  rw [hy, Option.some_bind, hl]
  simp only [Bool.false_and, Bool.false_eq_true, if_false]
  rw [hmod]

/-- C5 witness: a concrete one-bin round trip. -/
theorem claim_C5_witness :
    ((sC5.set_xf_band 0 1).set_xf_band (-1) 0).get_y_matrix cfgFix 2212 211 =
      some [[5]] ∧
    ((sC5.set_xf_band 0 1).set_xf_band (-1) 0).yields = sC5.yields ∧
    ((sC5.set_xf_band 0 1).set_xf_band (-1) 0).band = none :=
  claim_C5 cfgFix sC5 0 1 2212 211 [[5]] (by decide) (by decide) (by decide)
    (by decide)

/-! Claim C2: the aliased zero matrix. -/

/-- C2 (bug exhibit): before any modification is set, the charm-disabled
branch of `get_y_matrix` returns the zero matrix, but one call to
`_set_mod_pprod` builds the shared x-matrix through
`self.xmat = self.no_interaction` and in-place writes, after which the
"all-zero" matrix returned for charmed projectiles is the x-matrix. -/
theorem claim_C2_bug :
    sIY0.get_y_matrix cfgBugFix 411 321 = some [[0, 0], [0, 0]] ∧
    sIY0._set_mod_pprod cfgBugFix 2212 211 "f" fconst [] =
      some (true, sBugOut) ∧
    sBugOut.get_y_matrix cfgBugFix 411 321 = some xmatFix ∧
    xmatFix ≠ [[0, 0], [0, 0]] := by
  refine ⟨by decide, by with_unfolding_all rfl, by with_unfolding_all rfl, ?_⟩
  exact of_decide_eq_true (by with_unfolding_all rfl)

/-! Claims C3 and C4: the modification store. -/

theorem applyIsospin_lookup_self (cfg : Config) (s2 : InteractionYields)
    (prim sec : Int) (f : XFunc) (args : List ℚ) (kmat : Mat)
    (sr : InteractionYields)
    (h : s2.applyIsospin cfg prim sec f args kmat = some sr) :
    alookup sr.mod_pprod (prim, sec) = alookup s2.mod_pprod (prim, sec) := by
  unfold InteractionYields.applyIsospin at h
  by_cases hc : (cfg.use_isospin_sym && decide (prim = 2212)) = true
  case neg =>
    rw [if_neg hc] at h
    cases h; rfl
  case pos =>
    have hand := hc
    simp only [Bool.and_eq_true, decide_eq_true_eq] at hand
    have hprim : prim = 2212 := hand.2
    rw [if_pos hc] at h
    subst hprim
    by_cases h211 : sec.natAbs = 211
    case pos =>
      rw [if_pos h211] at h
      try dsimp only [] at h
      have hsec : sec = 211 ∨ sec = -211 := by omega
      have hne : ((2212 : Int), sec) ≠ ((2112 : Int), -sec) := by
        intro he; injection he with h1 _; exact absurd h1 (by decide)
      have hnm : ((2212 : Int), sec) ∉ isoKeysPion := by
        rcases hsec with hs | hs <;> subst hs <;> decide
      by_cases hu : (221 ∈ s2.projectiles ∨ 223 ∈ s2.projectiles ∨
          333 ∈ s2.projectiles)
      case pos =>
        rw [if_pos hu] at h
        cases halo : alookup
            (aset s2.mod_pprod (2112, -sec) ("isospin", args, kmat))
            (2212, -sec) with
        | none =>
          rw [halo] at h
          try dsimp only [] at h
          cases h
          rw [alookup_foldl_aset_ne _ _ _ _ hnm, gen_mod_matrix_mod_pprod]
          exact alookup_aset_ne _ _ _ _ hne
        | some e =>
          obtain ⟨n, oargs, mm⟩ := e
          rw [halo] at h
          try dsimp only [] at h
          cases havg : avgArgs args oargs with
          | none => rw [havg] at h; simp at h
          | some ua =>
            rw [havg] at h
            try dsimp only [] at h
            cases h
            rw [alookup_foldl_aset_ne _ _ _ _ hnm, gen_mod_matrix_mod_pprod]
            exact alookup_aset_ne _ _ _ _ hne
      case neg =>
        rw [if_neg hu] at h
        cases h
        exact alookup_aset_ne _ _ _ _ hne
    case neg =>
      rw [if_neg h211] at h
      by_cases h321 : sec.natAbs = 321
      case pos =>
        rw [if_pos h321] at h
        try dsimp only [] at h
        have hsec : sec = 321 ∨ sec = -321 := by omega
        have hne : ((2212 : Int), sec) ≠ ((2112 : Int), sec) := by
          intro he; injection he with h1 _; exact absurd h1 (by decide)
        have hnm : ((2212 : Int), sec) ∉ isoKeysKaon := by
          rcases hsec with hs | hs <;> subst hs <;> decide
        cases halo : alookup
            (aset s2.mod_pprod (2112, sec) ("isospin", args, kmat))
            (2212, -sec) with
        | none =>
          rw [halo] at h
          try dsimp only [] at h
          cases h
          rw [alookup_foldl_aset_ne _ _ _ _ hnm, gen_mod_matrix_mod_pprod]
          exact alookup_aset_ne _ _ _ _ hne
        | some e =>
          obtain ⟨n, oargs, mm⟩ := e
          rw [halo] at h
          try dsimp only [] at h
          cases havg : avgArgs args oargs with
          | none => rw [havg] at h; simp at h
          | some ua =>
            rw [havg] at h
            try dsimp only [] at h
            cases h
            rw [alookup_foldl_aset_ne _ _ _ _ hnm, gen_mod_matrix_mod_pprod]
            exact alookup_aset_ne _ _ _ _ hne
      case neg =>
        rw [if_neg h321] at h
        by_cases h2212 : sec.natAbs = 2212
        case pos =>
          rw [if_pos h2212] at h
          have hsec : sec = 2212 ∨ sec = -2212 := by omega
          have hne : ((2212 : Int), sec) ≠ ((2112 : Int), 2112) := by
            intro he; injection he with h1 _; exact absurd h1 (by decide)
          cases halo : alookup s2.mod_pprod (2212, sec) with
          | none => rw [halo] at h; simp at h
          | some e =>
            rw [halo] at h
            try dsimp only [] at h
            cases h
            try dsimp only []
            rw [alookup_aset_ne _ _ _ _ hne]
            exact halo
        case neg =>
          rw [if_neg h2212] at h
          cases h; rfl

theorem applyIsospin_pion_mirror (cfg : Config) (s2 : InteractionYields)
    (f : XFunc) (args : List ℚ) (kmat : Mat) (sr : InteractionYields)
    (hiso : cfg.use_isospin_sym = true)
    (h : s2.applyIsospin cfg 2212 211 f args kmat = some sr) :
    alookup sr.mod_pprod (2112, -211) = some ("isospin", args, kmat) := by
  unfold InteractionYields.applyIsospin at h
  rw [if_pos (by simp [hiso])] at h
  rw [if_pos (by decide : (211 : Int).natAbs = 211)] at h
  try dsimp only [] at h
  have hnm : ((2112 : Int), -(211 : Int)) ∉ isoKeysPion := by decide
  by_cases hu : (221 ∈ s2.projectiles ∨ 223 ∈ s2.projectiles ∨
      333 ∈ s2.projectiles)
  case pos =>
    rw [if_pos hu] at h
    cases halo : alookup
        (aset s2.mod_pprod (2112, -211) ("isospin", args, kmat))
        (2212, -211) with
    | none =>
      rw [halo] at h
      try dsimp only [] at h
      cases h
      rw [alookup_foldl_aset_ne _ _ _ _ hnm, gen_mod_matrix_mod_pprod]
      exact alookup_aset_self _ _ _
    | some e =>
      obtain ⟨n, oargs, mm⟩ := e
      rw [halo] at h
      try dsimp only [] at h
      cases havg : avgArgs args oargs with
      | none => rw [havg] at h; simp at h
      | some ua =>
        rw [havg] at h
        try dsimp only [] at h
        cases h
        rw [alookup_foldl_aset_ne _ _ _ _ hnm, gen_mod_matrix_mod_pprod]
        exact alookup_aset_self _ _ _
  case neg =>
    rw [if_neg hu] at h
    cases h
    exact alookup_aset_self _ _ _

/-- C3: calling `_set_mod_pprod` a second time with the same
`(primary, secondary)` pair and identical `(function name, args)` returns
`False` and leaves the whole state, in particular every cached
modification matrix including the isospin-derived entries, identical to
its state after the first call. -/
theorem claim_C3 (cfg : Config) (s : InteractionYields) (prim sec : Int)
    (fname : String) (f : XFunc) (args : List ℚ) (b : Bool)
    (s1 : InteractionYields)
    (h : s._set_mod_pprod cfg prim sec fname f args = some (b, s1)) :
    s1._set_mod_pprod cfg prim sec fname f args = some (false, s1) := by
  unfold InteractionYields._set_mod_pprod at h ⊢
  by_cases hm : modMatches s.mod_pprod (prim, sec) fname args = true
  case pos =>
    rw [if_pos hm] at h
    injection h with h1
    injection h1 with hb hs
    subst hb; subst hs
    rw [if_pos hm]
  case neg =>
    rw [if_neg hm] at h
    try dsimp only [] at h
    rw [Option.map_eq_some'] at h
    obtain ⟨s3, happ, hpair⟩ := h
    injection hpair with hb hs
    subst hs
    have hpre := applyIsospin_lookup_self cfg _ prim sec f args _ _ happ
    have hself : alookup s3.mod_pprod (prim, sec) =
        some (fname, args, (s._gen_mod_matrix f args).1) := by
      rw [hpre]
      exact alookup_aset_self _ _ _
    have hmm : modMatches s3.mod_pprod (prim, sec) fname args = true := by
      unfold modMatches
      rw [hself]
      simp
    rw [if_pos hmm]

/-- C3 witness: a concrete first call (with isospin propagation) followed by
an identical second call, which is a pure no-op returning `false`. -/
theorem claim_C3_witness :
    sIY0._set_mod_pprod cfgIsoFix 2212 211 "f" fconst [] =
      some (true, sIsoOut) ∧
    sIsoOut._set_mod_pprod cfgIsoFix 2212 211 "f" fconst [] =
      some (false, sIsoOut) :=
  ⟨by with_unfolding_all rfl,
   claim_C3 cfgIsoFix sIY0 2212 211 "f" fconst [] true sIsoOut
     (by with_unfolding_all rfl)⟩

/-- C4: with isospin symmetry enabled, a (state-changing) call
`_set_mod_pprod 2212 211 x_func args` stores the generated matrix for
`(2212, 211)` and also stores an entry for `(2112, -211)` with identical
matrix content and function tag `"isospin"`. -/
theorem claim_C4 (cfg : Config) (s : InteractionYields) (fname : String)
    (f : XFunc) (args : List ℚ) (s1 : InteractionYields)
    (hiso : cfg.use_isospin_sym = true)
    (h : s._set_mod_pprod cfg 2212 211 fname f args = some (true, s1)) :
    alookup s1.mod_pprod (2212, 211) =
      some (fname, args, (s._gen_mod_matrix f args).1) ∧
    alookup s1.mod_pprod (2112, -211) =
      some ("isospin", args, (s._gen_mod_matrix f args).1) := by
  unfold InteractionYields._set_mod_pprod at h
  by_cases hm : modMatches s.mod_pprod (2212, 211) fname args = true
  case pos =>
    rw [if_pos hm] at h
    injection h with h1
    injection h1 with hb _
    exact absurd hb (by decide)
  case neg =>
    rw [if_neg hm] at h
    try dsimp only [] at h
    rw [Option.map_eq_some'] at h
    obtain ⟨s3, happ, hpair⟩ := h
    injection hpair with _ hs
    subst hs
    constructor
    · rw [applyIsospin_lookup_self cfg _ 2212 211 f args _ _ happ]
      exact alookup_aset_self _ _ _
    · exact applyIsospin_pion_mirror cfg _ f args _ _ hiso happ

/-- C4 witness: the concrete isospin mirror entry of the fixture run. -/
theorem claim_C4_witness :
    alookup sIsoOut.mod_pprod (2212, 211) =
      some ("f", [], (sIY0._gen_mod_matrix fconst []).1) ∧
    alookup sIsoOut.mod_pprod (2112, -211) =
      some ("isospin", [], (sIY0._gen_mod_matrix fconst []).1) :=
  claim_C4 cfgIsoFix sIY0 "f" fconst [] sIsoOut rfl
    (by with_unfolding_all rfl)

/-! Claims C1, C6 and C9: the mixing-energy classification. -/

theorem firstIdx_lt_length {α : Type} (pp : α → Bool) (l : List α) (k : ℕ)
    (h : firstIdx pp l = some k) : k < l.length := by
  induction l generalizing k with
  | nil => simp [firstIdx] at h
  | cons a t ih =>
    unfold firstIdx at h
    by_cases hp : pp a = true
    · rw [if_pos hp] at h
      injection h with h1
      subst h1
      simp
    · rw [if_neg hp] at h
      cases hf : firstIdx pp t with
      | none => rw [hf] at h; cases h
      | some j =>
        rw [hf, Option.map_some'] at h
        injection h with h1
        subst h1
        have := ih j hf
        simp only [List.length_cons]
        omega

theorem vdiv_length (a b c : List FVal) (h : vdiv a b = some c) :
    c.length = b.length := by
  unfold vdiv at h
  by_cases hl : a.length = b.length
  · rw [if_pos hl] at h
    injection h with h1
    subst h1
    simp [hl]
  · rw [if_neg hl] at h; cases h

theorem inverse_interaction_length_length (cfg : Config) (p : MCEqParticle)
    (w : List ℚ) (h : p.inverse_interaction_length cfg = some w) :
    w.length = p.d := by
  unfold MCEqParticle.inverse_interaction_length at h
  cases hc : p.csv with
  | none => rw [hc] at h; simp at h
  | some sv =>
    rw [hc] at h
    cases sv with
    | inl s =>
      try dsimp only [] at h
      injection h with h1
      subst h1
      simp
    | inr v =>
      try dsimp only [] at h
      by_cases hv : v.length = p.d
      · rw [if_pos hv] at h
        injection h with h1
        subst h1
        simp [hv]
      · rw [if_neg hv] at h
        by_cases h1 : v.length = 1
        · rw [if_pos h1] at h
          injection h with h2
          subst h2
          simp
        · rw [if_neg h1] at h; cases h

theorem scale_fin_zero (c : ℚ) : FVal.scale c (.fin 0) = .fin 0 := by
  simp [FVal.scale]

theorem div_fin0_recip (x : ℚ) :
    FVal.div (.fin 0) (FVal.recip (.fin x)) = .fin 0 := by
  by_cases hx : x = 0
  · subst hx
    simp [FVal.recip, FVal.div]
  · simp [FVal.recip, FVal.div, hx, inv_ne_zero hx]

theorem zipWith_div_fin0 (g : ℚ → FVal)
    (hg : ∀ x, FVal.div (.fin 0) (g x) = .fin 0) (n : ℕ) (l : List ℚ) :
    List.zipWith FVal.div (List.replicate n (FVal.fin 0)) (l.map g) =
      List.replicate (min n l.length) (FVal.fin 0) := by
  induction l generalizing n with
  | nil => simp
  | cons x t ih =>
    cases n with
    | zero => simp
    | succ m =>
      simp only [List.replicate_succ, List.map_cons, List.zipWith_cons_cons,
        List.length_cons, hg x, ih m]
      rw [Nat.succ_min_succ, List.replicate_succ]

theorem max2_fin0_fin0 : FVal.max2 (.fin 0) (.fin 0) = .fin 0 := by decide

theorem min2_fin0_fin0 : FVal.min2 (.fin 0) (.fin 0) = .fin 0 := by decide

theorem foldl_max2_replicate (n : ℕ) :
    (List.replicate n (FVal.fin 0)).foldl FVal.max2 (.fin 0) = .fin 0 := by
  induction n with
  | zero => rfl
  | succ m ih =>
    simp only [List.replicate_succ, List.foldl_cons, max2_fin0_fin0]
    exact ih

theorem foldl_min2_replicate (n : ℕ) :
    (List.replicate n (FVal.fin 0)).foldl FVal.min2 (.fin 0) = .fin 0 := by
  induction n with
  | zero => rfl
  | succ m ih =>
    simp only [List.replicate_succ, List.foldl_cons, min2_fin0_fin0]
    exact ih

theorem npMax_replicate_fin0 (n : ℕ) (hn : 1 ≤ n) :
    npMax (List.replicate n (.fin 0)) = some (.fin 0) := by
  cases n with
  | zero => omega
  | succ m =>
    simp only [List.replicate_succ, npMax]
    rw [foldl_max2_replicate]

theorem npMin_replicate_fin0 (n : ℕ) (hn : 1 ≤ n) :
    npMin (List.replicate n (.fin 0)) = some (.fin 0) := by
  cases n with
  | zero => omega
  | succ m =>
    simp only [List.replicate_succ, npMin]
    rw [foldl_min2_replicate]

/-- C1 counterexample: a species whose `ctau`-based computation raises the
division error is classified pure-resonance with `mix_idx = d - 1`, not
pure-hadron with `mix_idx = 0`; the decay length the method works with
(the reciprocal of the substituted infinite inverse decay length) is zero
at every energy, not infinite. -/
theorem claim_C1_counterexample :
    pStable.calculate_mixing_energy cfgFix [1, 10] false (1 / 10) =
      some pStableOut ∧
    pStableOut.is_resonance = true ∧ pStableOut.mix_idx = 1 ∧
    (pStable.inverse_decay_length [1, 10] true).map FVal.recip =
      [FVal.fin 0, FVal.fin 0] ∧
    ¬ ∃ pr, pStable.calculate_mixing_energy cfgFix [1, 10] false (1 / 10) =
        some pr ∧ pr.mix_idx = 0 ∧ pr.is_resonance = false := by
  refine ⟨by with_unfolding_all rfl, rfl, rfl, by with_unfolding_all rfl, ?_⟩
  rintro ⟨pr, hpr, h0, hres⟩
  rw [show pStable.calculate_mixing_energy cfgFix [1, 10] false (1 / 10) =
    some pStableOut from by with_unfolding_all rfl] at hpr
  have h5 := Option.some.inj hpr
  subst h5
  exact absurd h0 (by decide)

/-- C1 (amended): for a species whose lifetime data is zero (the
`ctau`-based computation raises a division error), `inverse_decay_length`
recovers locally by substituting an infinite INVERSE decay length at every
energy of the grid (so the decay length used downstream is zero), and
`calculate_mixing_energy` classifies the species pure-resonance:
`is_resonance = true`, `is_mixed = false`, `mixing_index = d - 1`, with
`E_mix` the top grid energy. -/
theorem claim_C1_amended (cfg : Config) (p : MCEqParticle) (e_grid : List ℚ)
    (no_mix : Bool) (md : ℚ) (w : List ℚ)
    (hct : p.ctau = 0)
    (hnuc : ¬(p.pdgid.natAbs = 2212 ∨ p.pdgid.natAbs = 2112))
    (hex : p.pdgid.natAbs ∉ cfg.exclude_from_mixing)
    (hw : p.inverse_interaction_length cfg = some w)
    (hpos : w.any (fun q => decide (0 < q)) = true)
    (hd : 1 ≤ p.d) (hge : e_grid.length = p.d)
    (hco : 0 < cfg.hybrid_crossover) :
    p.inverse_decay_length e_grid true = List.replicate p.d FVal.inf ∧
    p.calculate_mixing_energy cfg e_grid no_mix md =
      some { p with mix_idx := p.d - 1, E_mix := e_grid.getD (p.d - 1) 0,
                    is_mixed := false, is_resonance := true } := by
  have hdecl : p.inverse_decay_length e_grid true =
      List.replicate p.d FVal.inf := by
    unfold MCEqParticle.inverse_decay_length
    rw [if_pos hct]
  refine ⟨hdecl, ?_⟩
  have hwl : w.length = p.d := inverse_interaction_length_length cfg p w hw
  have hany1 : (p.inverse_decay_length e_grid true).any FVal.gt0 = true := by
    rw [hdecl]
    cases hn : p.d with
    | zero => omega
    | succ m => simp [List.replicate_succ, FVal.gt0, FVal.blt]
  have hthr : vdiv
      (((p.inverse_decay_length e_grid true).map FVal.recip).map
        (FVal.scale md))
      (w.map fun q => FVal.recip (.fin q)) =
      some (List.replicate p.d (FVal.fin 0)) := by
    rw [hdecl]
    simp only [List.map_replicate]
    rw [show FVal.recip FVal.inf = FVal.fin 0 from rfl, scale_fin_zero]
    unfold vdiv
    rw [if_pos (by simp [hwl])]
    rw [zipWith_div_fin0 _ (fun x => div_fin0_recip x) p.d w]
    simp [hwl]
  have hget : e_grid.get? (p.d - 1) = some (e_grid.getD (p.d - 1) 0) := by
    have hlt : p.d - 1 < e_grid.length := by omega
    rw [List.getD_eq_get?, List.get?_eq_get hlt]
    rfl
  have hblt : FVal.blt (.fin 0) (.fin cfg.hybrid_crossover) = true := by
    simp [FVal.blt, hco]
  unfold MCEqParticle.calculate_mixing_energy
  rw [if_neg hnuc, hw]
  simp only [Option.some_bind]
  rw [if_neg (by simp [hany1, hpos, hex])]
  simp only [hthr, npMax_replicate_fin0 p.d hd, npMin_replicate_fin0 p.d hd,
    Option.some_bind]
  rw [if_pos hblt]
  simp only [hget, Option.some_bind]

/-- C1 witness: the concrete zero-lifetime fixture. -/
theorem claim_C1_witness :
    pStable.inverse_decay_length [1, 10] true = List.replicate 2 FVal.inf ∧
    pStable.calculate_mixing_energy cfgFix [1, 10] false (1 / 10) =
      some pStableOut :=
  claim_C1_amended cfgFix pStable [1, 10] false (1 / 10) [1, 1]
    rfl (by decide) (by decide) (by with_unfolding_all rfl)
    (by with_unfolding_all rfl) (by decide) rfl
    (of_decide_eq_true (by with_unfolding_all rfl))

/-- C6: in the mixed case — the guards pass, neither `max(threshold) <
crossover` nor `min(threshold) > crossover` holds, and `no_mix` is false —
`calculate_mixing_energy` sets `mix_idx` to the first grid index at which
`threshold > crossover` and `E_mix = e_grid[mix_idx]`; in particular when
the first crossing is at index `k`, `mix_idx` equals `k`. -/
theorem claim_C6 (cfg : Config) (p : MCEqParticle) (e_grid : List ℚ)
    (no_mix : Bool) (md : ℚ) (w : List ℚ) (threshold : List FVal)
    (mx mn : FVal) (k : ℕ) (em : ℚ)
    (hnuc : ¬(p.pdgid.natAbs = 2212 ∨ p.pdgid.natAbs = 2112))
    (hw : p.inverse_interaction_length cfg = some w)
    (hany1 : (p.inverse_decay_length e_grid true).any FVal.gt0 = true)
    (hany2 : w.any (fun q => decide (0 < q)) = true)
    (hex : p.pdgid.natAbs ∉ cfg.exclude_from_mixing)
    (hth : vdiv
      (((p.inverse_decay_length e_grid true).map FVal.recip).map
        (FVal.scale md))
      (w.map fun q => FVal.recip (.fin q)) = some threshold)
    (hmx : npMax threshold = some mx)
    (hmn : npMin threshold = some mn)
    (h1 : mx.blt (.fin cfg.hybrid_crossover) = false)
    (h2 : (FVal.fin cfg.hybrid_crossover).blt mn = false)
    (hnm : no_mix = false)
    (hk : firstIdx (fun t => (FVal.fin cfg.hybrid_crossover).blt t)
      threshold = some k)
    (hem : e_grid.get? k = some em) :
    p.calculate_mixing_energy cfg e_grid no_mix md =
      some { p with mix_idx := k, E_mix := em, is_mixed := true,
                    is_resonance := false } := by
  unfold MCEqParticle.calculate_mixing_energy
  rw [if_neg hnuc, hw]
  simp only [Option.some_bind]
  rw [if_neg (by simp [hany1, hany2, hex])]
  simp only [hth, hmx, hmn, Option.some_bind]
  rw [if_neg (by simp [h1])]
  rw [if_neg (by simp [h2, hnm])]
  simp only [hk, hem, Option.some_bind]

/-- C6 witness: the engineered crossing at grid index 1. -/
theorem claim_C6_witness :
    pMix.calculate_mixing_energy cfgMixFix [1, 10, 100] false (1 / 20) =
      some pMixOut :=
  claim_C6 cfgMixFix pMix [1, 10, 100] false (1 / 20) [1, 1, 1]
    [FVal.fin (1 / 20), FVal.fin (1 / 2), FVal.fin 5] (FVal.fin 5)
    (FVal.fin (1 / 20)) 1 10
    (by decide) (by with_unfolding_all rfl) (by with_unfolding_all rfl)
    (by with_unfolding_all rfl) (by decide) (by with_unfolding_all rfl)
    (by with_unfolding_all rfl) (by with_unfolding_all rfl)
    (by with_unfolding_all rfl) (by with_unfolding_all rfl) rfl
    (by with_unfolding_all rfl) rfl

/-- C9: whenever `calculate_mixing_energy` returns (in any classification
branch), `residx = (0, mix_idx)` and `hadridx = (mix_idx, d)` partition
the index range `[0, d)` with no gap and no overlap. -/
theorem claim_C9 (cfg : Config) (p : MCEqParticle) (e_grid : List ℚ)
    (no_mix : Bool) (md : ℚ) (pout : MCEqParticle)
    (h : p.calculate_mixing_energy cfg e_grid no_mix md = some pout) :
    (Finset.Ico pout.residx.1 pout.residx.2 ∪
        Finset.Ico pout.hadridx.1 pout.hadridx.2 = Finset.range pout.d) ∧
    Disjoint (Finset.Ico pout.residx.1 pout.residx.2)
      (Finset.Ico pout.hadridx.1 pout.hadridx.2) := by
  have hmain : pout.mix_idx ≤ pout.d := by
    unfold MCEqParticle.calculate_mixing_energy at h
    by_cases hnuc : (p.pdgid.natAbs = 2212 ∨ p.pdgid.natAbs = 2112)
    · rw [if_pos hnuc] at h
      cases h
      exact Nat.zero_le _
    · rw [if_neg hnuc] at h
      cases hw : p.inverse_interaction_length cfg with
      | none => rw [hw] at h; simp at h
      | some w =>
        rw [hw] at h
        simp only [Option.some_bind] at h
        by_cases hg : ((p.inverse_decay_length e_grid true).any FVal.gt0 =
            false ∨ w.any (fun q => decide (0 < q)) = false ∨
            p.pdgid.natAbs ∈ cfg.exclude_from_mixing)
        · rw [if_pos hg] at h
          cases h
          exact Nat.zero_le _
        · rw [if_neg hg] at h
          try dsimp only [] at h
          cases hv : vdiv
              (((p.inverse_decay_length e_grid true).map FVal.recip).map
                (FVal.scale md))
              (w.map fun q => FVal.recip (.fin q)) with
          | none => rw [hv] at h; simp at h
          | some threshold =>
            rw [hv] at h
            simp only [Option.some_bind] at h
            cases hmx : npMax threshold with
            | none => rw [hmx] at h; simp at h
            | some mx =>
              rw [hmx] at h
              simp only [Option.some_bind] at h
              cases hmn : npMin threshold with
              | none => rw [hmn] at h; simp at h
              | some mn =>
                rw [hmn] at h
                simp only [Option.some_bind] at h
                by_cases hb1 : mx.blt (.fin cfg.hybrid_crossover) = true
                · rw [if_pos hb1] at h
                  cases hget : e_grid.get? (p.d - 1) with
                  | none => rw [hget] at h; simp at h
                  | some em =>
                    rw [hget] at h
                    simp only [Option.some_bind] at h
                    cases h
                    exact Nat.sub_le p.d 1
                · rw [if_neg hb1] at h
                  by_cases hb2 : ((FVal.fin cfg.hybrid_crossover).blt mn =
                      true ∨ no_mix = true)
                  · rw [if_pos hb2] at h
                    cases h
                    exact Nat.zero_le _
                  · rw [if_neg hb2] at h
                    cases hk : firstIdx
                        (fun t => (FVal.fin cfg.hybrid_crossover).blt t)
                        threshold with
                    | none => rw [hk] at h; simp at h
                    | some k =>
                      rw [hk] at h
                      simp only [Option.some_bind] at h
                      cases hget : e_grid.get? k with
                      | none => rw [hget] at h; simp at h
                      | some em =>
                        rw [hget] at h
                        simp only [Option.some_bind] at h
                        cases h
                        have hk1 := firstIdx_lt_length _ _ _ hk
                        have hk2 := vdiv_length _ _ _ hv
                        have hk3 : (w.map fun q => FVal.recip (.fin q)).length =
                            w.length := by simp
                        have hk4 := inverse_interaction_length_length cfg p w hw
                        show k ≤ p.d
                        omega
  constructor
  · show Finset.Ico 0 pout.mix_idx ∪ Finset.Ico pout.mix_idx pout.d =
      Finset.range pout.d
    rw [Finset.range_eq_Ico]
    exact Finset.Ico_union_Ico_eq_Ico (Nat.zero_le _) hmain
  · exact Finset.Ico_disjoint_Ico_consecutive _ _ _

/-- C9 witness: the partition on the concrete mixed-classification run. -/
theorem claim_C9_witness :
    (Finset.Ico pMixOut.residx.1 pMixOut.residx.2 ∪
        Finset.Ico pMixOut.hadridx.1 pMixOut.hadridx.2 =
      Finset.range pMixOut.d) ∧
    Disjoint (Finset.Ico pMixOut.residx.1 pMixOut.residx.2)
      (Finset.Ico pMixOut.hadridx.1 pMixOut.hadridx.2) :=
  claim_C9 cfgMixFix pMix [1, 10, 100] false (1 / 20) pMixOut
    (by with_unfolding_all rfl)

end MCEqData
